import Mathlib

/-!
Verification of the sounding-analysis core (`src/calc/thermo.js`).

The JavaScript module is shallowly embedded over an arbitrary linear ordered
field `K`.  The transcendental primitives of the host math library
(`Math.exp`, `Math.log`, `Math.pow`, `Math.sqrt`, `Math.sin`, `Math.cos`,
`Math.PI`) are abstracted into a record `MathPrims K`; every routine of the
module is a Lean function parameterised by such a record, translated
line-by-line from the source.  Claims that depend on genuine real-number
behaviour of the primitives are settled at the instance `realPrims : MathPrims ℝ`
(the Mathlib `Real.exp`, `Real.log`, `Real.rpow`, ...); claims about control
flow hold for every instance and are witnessed at a concrete computable
rational instance.

`null` results of the JavaScript code are embedded as `Option`; `Math.round`
is `⌊x + 1/2⌋` (its exact semantics on finite doubles).
-/

/-- The math-library primitives used by `thermo.js` (`Math.exp` etc.),
abstracted so that the module can be stated over any linear ordered field. -/
structure MathPrims (K : Type) where
  exp : K → K
  log : K → K
  pow : K → K → K
  sqrt : K → K
  sin : K → K
  cos : K → K
  pi : K

/-- One observed level of a sounding profile (`SoundingLevel`). -/
structure Level (K : Type) where
  pressure : K
  height : K
  temp : K
  dewpoint : K
  windDir : K
  windSpd : K
deriving Repr, DecidableEq

instance {K : Type} [Zero K] : Inhabited (Level K) := ⟨⟨0, 0, 0, 0, 0, 0⟩⟩

/-- A point on the ascent of a lifted parcel (`{pressure, temp}`). -/
structure ParcelPoint (K : Type) where
  pressure : K
  temp : K
deriving Repr, DecidableEq

/-- A `{pressure, height}` pair, as stored in the `lfc` / `el` fields. -/
structure LevelPoint (K : Type) where
  pressure : K
  height : K
deriving Repr, DecidableEq

/-- Result (and loop state) of `calcCAPE_CIN`. -/
structure EnergyResult (K : Type) where
  cape : K
  cin : K
  lfc : Option (LevelPoint K)
  el : Option (LevelPoint K)
deriving Repr, DecidableEq

/-- A wind vector `{u, v}` in m/s. -/
structure Wind (K : Type) where
  u : K
  v : K
deriving Repr, DecidableEq

section Embedding

variable {K : Type} [LinearOrderedField K]

/-- Gas constant for dry air (J/kg/K). -/
def Rd : K := 287.04
/-- Gas constant for water vapor. -/
def Rv : K := 461.5
/-- Specific heat at constant pressure. -/
def Cp : K := 1005.7
/-- Latent heat of vaporization. -/
def Lv : K := 2.501e6
/-- Gravity. -/
def grav : K := 9.80665
/-- `eps = Rd / Rv` (≈ 0.622). -/
def eps : K := Rd / Rv

/-- Convert Celsius to Kelvin. -/
def CtoK (c : K) : K := c + 273.15
/-- Convert Kelvin to Celsius. -/
def KtoC (k : K) : K := k - 273.15
/-- Convert knots to m/s. -/
def ktsToMs (kts : K) : K := kts * 0.51444

variable (prims : MathPrims K)

/-- Saturation vapor pressure (Bolton 1980) in hPa. -/
def es (tc : K) : K :=
  6.112 * prims.exp ((17.67 * tc) / (tc + 243.5))

/-- Mixing ratio in g/kg given temperature (°C) and pressure (hPa). -/
def mixingRatio (tc p : K) : K :=
  let e := es prims tc
  (1000 * eps * e) / (p - e)

/-- Temperature at LCL (K) using Bolton approximation. -/
def lclTemp (tc tdc : K) : K :=
  let tk := CtoK tc
  let tdk := CtoK tdc
  1 / (1 / (tdk - 56) + prims.log (tk / tdk) / 800) + 56

/-- Theta-e (equivalent potential temperature) in K, simplified Bolton formula. -/
def thetaE (tc tdc p : K) : K :=
  let tk := CtoK tc
  let w := mixingRatio prims tc tdc / 1000
  let theta := tk * prims.pow (1000 / p) (0.2854 * (1 - 0.28 * w))
  theta * prims.exp ((3.376 / lclTemp prims tc tdc - 0.00254) * w * 1000 * (1 + 0.81 * w))

/-- LCL pressure using Poisson equation. -/
def lclPressure (tc tdc p : K) : K :=
  let tlcl := lclTemp prims tc tdc
  let tk := CtoK tc
  p * prims.pow (tlcl / tk) (1 / 0.2854)

/-- Dry adiabatic lapse rate temperature at pressure `p2`, starting at `tc` (°C) and `p1`. -/
def dryAdiabat (tc p1 p2 : K) : K :=
  let tk := CtoK tc
  KtoC (tk * prims.pow (p2 / p1) (Rd / Cp))

/-- Moist adiabatic temperature at pressure `pEnd` given starting temp (°C) and
pressure; fixed-step iterative method (`steps = 200` at every call site). -/
def moistAdiabat (tc pStart pEnd : K) (steps : Nat) : K :=
  let dp := (pEnd - pStart) / (steps : K)
  let step := fun (tp : K × K) (_ : Nat) =>
    let t := tp.1
    let p := tp.2
    let w := mixingRatio prims (KtoC t) p / 1000
    let gammaM := (Rd * t + Lv * w) / (Cp + (Lv * Lv * w * eps) / (Rd * t * t))
    let dtdp := gammaM / p
    (t + dtdp * dp, p + dp)
  KtoC (((List.range steps).foldl step (CtoK tc, pStart)).1)

/-- Result of `liftParcel`: the parcel path together with the LCL data. -/
structure LiftResult (K : Type) where
  parcel : List (ParcelPoint K)
  pLCL : K
  tLCL : K

/-- Lift a parcel from the surface, following the dry adiabat to the LCL and
the moist adiabat above; one path point per profile level at or below the
origin pressure. -/
def liftParcel (tSfc tdSfc pSfc : K) (levels : List (Level K)) : LiftResult K :=
  let pLCL := lclPressure prims tSfc tdSfc pSfc
  let tLCL := KtoC (lclTemp prims tSfc tdSfc)
  let parcel := (levels.filter (fun lev => decide (¬ lev.pressure > pSfc))).map
    (fun lev =>
      if lev.pressure ≥ pLCL then
        ⟨lev.pressure, dryAdiabat prims tSfc pSfc lev.pressure⟩
      else
        ⟨lev.pressure, moistAdiabat prims tLCL pLCL lev.pressure 200⟩)
  ⟨parcel, pLCL, tLCL⟩

/-- The inclusive bracketing condition tested by `interpAtPressure`: the
target pressure lies between the pressures of `a` and `b`, in either
orientation. -/
def bracketsPressure (a b : Level K) (pTarget : K) : Prop :=
  (a.pressure ≥ pTarget ∧ b.pressure ≤ pTarget) ∨
    (a.pressure ≤ pTarget ∧ b.pressure ≥ pTarget)

instance (a b : Level K) (pTarget : K) : Decidable (bracketsPressure a b pTarget) :=
  inferInstanceAs (Decidable ((a.pressure ≥ pTarget ∧ b.pressure ≤ pTarget) ∨
    (a.pressure ≤ pTarget ∧ b.pressure ≥ pTarget)))

/-- The inclusive bracketing condition tested by `pressureAtHeight`: the
target height lies between the heights of `a` and `b`, in either
orientation. -/
def bracketsHeight (a b : Level K) (target : K) : Prop :=
  (a.height ≤ target ∧ b.height ≥ target) ∨
    (a.height ≥ target ∧ b.height ≤ target)

instance (a b : Level K) (target : K) : Decidable (bracketsHeight a b target) :=
  inferInstanceAs (Decidable ((a.height ≤ target ∧ b.height ≥ target) ∨
    (a.height ≥ target ∧ b.height ≤ target)))

/-- The log-pressure linear interpolation formula applied by
`interpAtPressure` on a bracketing pair `(a, b)`. -/
def logInterp (a b : Level K) (pTarget : K) (field : Level K → K) : K :=
  let frac := (prims.log pTarget - prims.log a.pressure) /
    (prims.log b.pressure - prims.log a.pressure)
  field a + frac * (field b - field a)

/-- Interpolate a field at a given pressure level: scan adjacent pairs for the
first one bracketing the target pressure, interpolate in log-pressure there;
`none` (JS `null`) when no pair brackets. -/
def interpAtPressure : List (Level K) → K → (Level K → K) → Option K
  | a :: b :: rest, pTarget, field =>
    if bracketsPressure a b pTarget then
      some (logInterp prims a b pTarget field)
    else
      interpAtPressure (b :: rest) pTarget field
  | _, _, _ => none

/-- Interpolate height at a given pressure level. -/
def heightAtPressure (levels : List (Level K)) (pTarget : K) : Option K :=
  interpAtPressure prims levels pTarget (fun lev => lev.height)

/-- The scan of `pressureAtHeight`: the first adjacent pair whose heights
bracket the target yields a pressure linear in height; `none` if no pair
brackets. -/
def pressureBracket : List (Level K) → K → Option K
  | a :: b :: rest, target =>
    if bracketsHeight a b target then
      some (a.pressure + (target - a.height) / (b.height - a.height) *
        (b.pressure - a.pressure))
    else
      pressureBracket (b :: rest) target
  | _, _ => none

/-- Find the pressure at a given height AGL; falls back to the pressure of the last level when no adjacent pair brackets the target height. -/
def pressureAtHeight [Zero K] (levels : List (Level K)) (hTarget : K) : K :=
  let sfcH := (levels.headD default).height
  let target := sfcH + hTarget
  match pressureBracket levels target with
  | some p => p
  | none => (levels.getLastD default).pressure

/-- Adjacent pairs of a list, in order: the index pairs `(i, i+1)` that the
JS `for` loops over `i = 0 .. length-2` visit. -/
def adjPairs {α : Type} : List α → List (α × α)
  | a :: b :: rest => (a, b) :: adjPairs (b :: rest)
  | _ => []

/-- The data of one layer of the `calcCAPE_CIN` loop body for a pair of
adjacent parcel points: `none` when an environment interpolation misses (the
JS `continue`), otherwise the layer energy together with the bottom and top
`{pressure, height}` points. -/
def layerEnergy (levels : List (Level K)) (pq : ParcelPoint K × ParcelPoint K) :
    Option (K × LevelPoint K × LevelPoint K) :=
  let p1 := pq.1.pressure
  let p2 := pq.2.pressure
  let parcelT1 := CtoK pq.1.temp
  let parcelT2 := CtoK pq.2.temp
  match interpAtPressure prims levels p1 (fun lev => lev.temp),
      interpAtPressure prims levels p2 (fun lev => lev.temp) with
  | some envT1, some envT2 =>
    let envTv1 := CtoK envT1
    let envTv2 := CtoK envT2
    let buoy1 := (parcelT1 - envTv1) / envTv1
    let buoy2 := (parcelT2 - envTv2) / envTv2
    let avgBuoy := (buoy1 + buoy2) / 2
    match heightAtPressure prims levels p1, heightAtPressure prims levels p2 with
    | some z1, some z2 =>
      let dz := z2 - z1
      some (grav * avgBuoy * dz, ⟨p1, z1⟩, ⟨p2, z2⟩)
    | _, _ => none
  | _, _ => none

/-- One iteration of the `calcCAPE_CIN` accumulation loop. -/
def capeStep (levels : List (Level K)) (st : EnergyResult K)
    (pq : ParcelPoint K × ParcelPoint K) : EnergyResult K :=
  match layerEnergy prims levels pq with
  | none => st
  | some (energy, bot, top) =>
    if energy > 0 then
      { cape := st.cape + energy
        cin := st.cin
        lfc := match st.lfc with
          | none => some bot
          | some x => some x
        el := some top }
    else
      { cape := st.cape
        cin := match st.lfc with
          | none => st.cin + energy
          | some _ => st.cin
        lfc := st.lfc
        el := st.el }

/-- Calculate CAPE and CIN for a given parcel path. -/
def calcCAPE_CIN (levels : List (Level K)) (parcel : List (ParcelPoint K)) :
    EnergyResult K :=
  let fin := (adjPairs parcel).foldl (capeStep prims levels) ⟨0, 0, none, none⟩
  ⟨max 0 fin.cape, min 0 fin.cin, fin.lfc, fin.el⟩

/-- Result of `mixedLayerAvg` (`{temp, dewpoint}`). -/
structure AvgTD (K : Type) where
  temp : K
  dewpoint : K

/-- Mixed-layer average (bottom `depth` hPa, 100 at the call site): arithmetic
mean of temperature and dewpoint; the loop breaks at the first level with
pressure below `sfcP - depth` and skips levels with pressure above `sfcP`. -/
def mixedLayerAvg [Zero K] (levels : List (Level K)) (depth : K) : AvgTD K :=
  let sfcP := (levels.headD default).pressure
  let topP := sfcP - depth
  let qual := (levels.takeWhile (fun lev => decide (¬ lev.pressure < topP))).filter
    (fun lev => decide (¬ lev.pressure > sfcP))
  if qual.length = 0 then
    ⟨(levels.headD default).temp, (levels.headD default).dewpoint⟩
  else
    ⟨(qual.map (fun lev => lev.temp)).sum / (qual.length : K),
      (qual.map (fun lev => lev.dewpoint)).sum / (qual.length : K)⟩

/-- Find the most unstable parcel (max theta-e in the lowest 300 hPa); the
initial `-Infinity` running maximum is embedded as `none` (beaten by any
first candidate), and ties keep the earlier level (strict `>`). -/
def mostUnstableParcel [Zero K] (levels : List (Level K)) : Level K :=
  let sfcP := (levels.headD default).pressure
  let topP := sfcP - 300
  let cand := levels.takeWhile (fun lev => decide (¬ lev.pressure < topP))
  (cand.foldl
    (fun acc lev =>
      let te := thetaE prims lev.temp lev.dewpoint lev.pressure
      match acc.1 with
      | none => (some te, lev)
      | some m => if te > m then (some te, lev) else acc)
    (none, levels.headD default)).2

/-- Wind components `(u, v)` in m/s from direction and speed in knots. -/
def windComponents (dir spd : K) : Wind K :=
  let spdMs := ktsToMs spd
  let rad := (dir * prims.pi) / 180
  ⟨-(spdMs * prims.sin rad), -(spdMs * prims.cos rad)⟩

/-- Mean wind in a layer (pressure-weighted average of u, v); zero vector when
no level qualifies. -/
def meanWind (levels : List (Level K)) (pBot pTop : K) : Wind K :=
  let qual := levels.filter
    (fun lev => decide (¬ (lev.pressure > pBot ∨ lev.pressure < pTop)))
  let uSum := (qual.map
    (fun lev => (windComponents prims lev.windDir lev.windSpd).u * lev.pressure)).sum
  let vSum := (qual.map
    (fun lev => (windComponents prims lev.windDir lev.windSpd).v * lev.pressure)).sum
  let wSum := (qual.map (fun lev => lev.pressure)).sum
  if wSum = 0 then ⟨0, 0⟩ else ⟨uSum / wSum, vSum / wSum⟩

/-- Result of `bulkShear` (`{mag, u, v}`). -/
structure ShearResult (K : Type) where
  mag : K
  u : K
  v : K

/-- Bulk wind shear between two height levels (m AGL); the zero result when
any of the four boundary interpolations misses. -/
def bulkShear [Zero K] (levels : List (Level K)) (hBot hTop : K) : ShearResult K :=
  let pBot := pressureAtHeight levels hBot
  let pTop := pressureAtHeight levels hTop
  match interpAtPressure prims levels pBot (fun lev => lev.windDir),
      interpAtPressure prims levels pBot (fun lev => lev.windSpd),
      interpAtPressure prims levels pTop (fun lev => lev.windDir),
      interpAtPressure prims levels pTop (fun lev => lev.windSpd) with
  | some dirBot, some spdBot, some dirTop, some spdTop =>
    let bot := windComponents prims dirBot spdBot
    let top := windComponents prims dirTop spdTop
    let du := top.u - bot.u
    let dv := top.v - bot.v
    ⟨prims.sqrt (du * du + dv * dv), du, dv⟩
  | _, _, _, _ => ⟨0, 0, 0⟩

/-- Result of `bunkersMotion`: right-mover and left-mover wind vectors. -/
structure StormMotion (K : Type) where
  right : Wind K
  left : Wind K
deriving DecidableEq

/-- Bunkers storm motion (right-mover and left-mover): 0-6 km mean wind plus
and minus a 7.5 m/s deviation orthogonal to the 0-6 km shear; both movers
equal the mean wind when the shear magnitude is exactly zero. -/
def bunkersMotion [Zero K] (levels : List (Level K)) : StormMotion K :=
  let sfcP := (levels.headD default).pressure
  let p6km := pressureAtHeight levels 6000
  let mw := meanWind prims levels sfcP p6km
  let shear := bulkShear prims levels 0 6000
  let d : K := 7.5
  let shearMag := prims.sqrt (shear.u * shear.u + shear.v * shear.v)
  if shearMag = 0 then
    ⟨⟨mw.u, mw.v⟩, ⟨mw.u, mw.v⟩⟩
  else
    let crossU := shear.v / shearMag
    let crossV := -shear.u / shearMag
    ⟨⟨mw.u + d * crossU, mw.v + d * crossV⟩,
      ⟨mw.u - d * crossU, mw.v - d * crossV⟩⟩

/-- Storm-Relative Helicity (SRH) in m²/s²: sum of cross products of
consecutive storm-relative wind vectors over the height band. -/
def calcSRH [Zero K] (levels : List (Level K)) (hBot hTop stormU stormV : K) : K :=
  let sfcH := (levels.headD default).height
  let layerLevels := levels.filter
    (fun lev => decide (lev.height - sfcH ≥ hBot ∧ lev.height - sfcH ≤ hTop))
  (adjPairs layerLevels).foldl
    (fun srh ab =>
      let wa := windComponents prims ab.1.windDir ab.1.windSpd
      let wb := windComponents prims ab.2.windDir ab.2.windSpd
      let sru1 := wa.u - stormU
      let srv1 := wa.v - stormV
      let sru2 := wb.u - stormU
      let srv2 := wb.v - stormV
      srh + (sru2 * srv1 - sru1 * srv2))
    0

/-- Lapse rate between two heights in °C/km; 0 when either boundary
temperature interpolation misses. -/
def lapseRate [Zero K] (levels : List (Level K)) (hBot hTop : K) : K :=
  let pBot := pressureAtHeight levels hBot
  let pTop := pressureAtHeight levels hTop
  match interpAtPressure prims levels pBot (fun lev => lev.temp),
      interpAtPressure prims levels pTop (fun lev => lev.temp) with
  | some tBot, some tTop => -((tTop - tBot) / ((hTop - hBot) / 1000))
  | _, _ => 0

/-- 700-500 hPa lapse rate; 0 when any interpolation misses. -/
def lapseRate700_500 (levels : List (Level K)) : K :=
  match interpAtPressure prims levels 700 (fun lev => lev.temp),
      interpAtPressure prims levels 500 (fun lev => lev.temp),
      heightAtPressure prims levels 700, heightAtPressure prims levels 500 with
  | some t700, some t500, some h700, some h500 =>
    -((t500 - t700) / ((h500 - h700) / 1000))
  | _, _, _, _ => 0

/-- Precipitable water in inches: trapezoidal integration of mixing ratio over
pressure, converted from kg/m² to inches. -/
def precipitableWater (levels : List (Level K)) : K :=
  let pw := (adjPairs levels).foldl
    (fun pw ab =>
      let w1 := mixingRatio prims ab.1.dewpoint ab.1.pressure / 1000
      let w2 := mixingRatio prims ab.2.dewpoint ab.2.pressure / 1000
      let dp := (ab.1.pressure - ab.2.pressure) * 100
      pw + ((w1 + w2) / 2) * dp / grav)
    0
  pw / 25.4

/-- Calculate the Significant Tornado Parameter (STP). -/
def calcSTP (sbcape lcl srh01 shear06 cin : K) : K :=
  let lclTerm := if lcl < 1000 then (2000 - lcl) / 1000
    else (if lcl < 2000 then (2000 - lcl) / 1000 else 0)
  let shearTerm := min (shear06 / 20) 1.5
  let cinTerm := if cin > -50 then 1 else (if cin > -150 then (200 + cin) / 150 else 0)
  let capeTerm := sbcape / 1500
  let srhTerm := srh01 / 150
  capeTerm * lclTerm * srhTerm * shearTerm * cinTerm

/-- Calculate the Supercell Composite Parameter (SCP). -/
def calcSCP (mucape srh03 shear06 : K) : K :=
  (mucape / 1000) * (srh03 / 100) * (shear06 / 20)

/-- JavaScript `Math.round` on finite inputs: `⌊x + 1/2⌋`. -/
def jround [FloorRing K] (x : K) : K := ((⌊x + 1 / 2⌋ : ℤ) : K)

/-- The full analysis record assembled by `analyzeSounding`. -/
structure AnalysisResult (K : Type) where
  sbcape : K
  sbcin : K
  mlcape : K
  mlcin : K
  mucape : K
  mucin : K
  lclPressure : K
  lclHeight : K
  lclTemp : K
  lfcPressure : Option K
  lfcHeight : Option K
  elPressure : Option K
  elHeight : Option K
  shear01 : K
  shear06 : K
  srh01 : K
  srh03 : K
  bunkers : StormMotion K
  lr03 : K
  lr700_500 : K
  pw : K
  stp : K
  scp : K
  sbParcel : List (ParcelPoint K)
  sfcHeight : K
  levels : List (Level K)

/-- Full analysis of a sounding: `none` for fewer than 5 levels, otherwise the
assembled `AnalysisResult` (JS falsiness of `sbLCL_hgt` — `null` or `0` —
maps the LCL height AGL to `0`). -/
def analyzeSounding [FloorRing K] (levels : List (Level K)) :
    Option (AnalysisResult K) :=
  if levels.length < 5 then
    none
  else
    let sfc := levels.headD default
    let sfcH := sfc.height
    let sbLift := liftParcel prims sfc.temp sfc.dewpoint sfc.pressure levels
    let sbResult := calcCAPE_CIN prims levels sbLift.parcel
    let ml := mixedLayerAvg levels 100
    let mlLift := liftParcel prims ml.temp ml.dewpoint sfc.pressure levels
    let mlResult := calcCAPE_CIN prims levels mlLift.parcel
    let muLev := mostUnstableParcel prims levels
    let muLift := liftParcel prims muLev.temp muLev.dewpoint muLev.pressure levels
    let muResult := calcCAPE_CIN prims levels muLift.parcel
    let sbLCLhgt := heightAtPressure prims levels sbLift.pLCL
    let lclAGL := match sbLCLhgt with
      | none => 0
      | some h => if h = 0 then 0 else h - sfcH
    let bunkers := bunkersMotion prims levels
    let shear01 := bulkShear prims levels 0 1000
    let shear06 := bulkShear prims levels 0 6000
    let srh01 := calcSRH prims levels 0 1000 bunkers.right.u bunkers.right.v
    let srh03 := calcSRH prims levels 0 3000 bunkers.right.u bunkers.right.v
    let lr03 := lapseRate prims levels 0 3000
    let lr7 := lapseRate700_500 prims levels
    let pw := precipitableWater prims levels
    let stp := calcSTP sbResult.cape lclAGL srh01 (shear06.mag * 1.94384) sbResult.cin
    let scp := calcSCP muResult.cape srh03 (shear06.mag * 1.94384)
    some
      { sbcape := jround sbResult.cape
        sbcin := jround sbResult.cin
        mlcape := jround mlResult.cape
        mlcin := jround mlResult.cin
        mucape := jround muResult.cape
        mucin := jround muResult.cin
        lclPressure := jround sbLift.pLCL
        lclHeight := jround lclAGL
        lclTemp := jround (sbLift.tLCL * 10) / 10
        lfcPressure := sbResult.lfc.map (fun x => jround x.pressure)
        lfcHeight := sbResult.lfc.map (fun x => jround (x.height - sfcH))
        elPressure := sbResult.el.map (fun x => jround x.pressure)
        elHeight := sbResult.el.map (fun x => jround (x.height - sfcH))
        shear01 := jround (shear01.mag * 1.94384)
        shear06 := jround (shear06.mag * 1.94384)
        srh01 := jround srh01
        srh03 := jround srh03
        bunkers := bunkers
        lr03 := jround (lr03 * 10) / 10
        lr700_500 := jround (lr7 * 10) / 10
        pw := jround (pw * 100) / 100
        stp := jround (stp * 10) / 10
        scp := jround (scp * 10) / 10
        sbParcel := sbLift.parcel
        sfcHeight := sfcH
        levels := levels }

end Embedding

/-- The real-number instantiation of the math primitives: the JS `Math.*`
functions read as their exact real counterparts. -/
noncomputable def realPrims : MathPrims ℝ :=
  ⟨Real.exp, Real.log, fun x y => x ^ y, Real.sqrt, Real.sin, Real.cos, Real.pi⟩

/-- A concrete computable rational instantiation of the math primitives, used
to exercise the control-flow theorems on explicit inputs. -/
def qPrims : MathPrims ℚ :=
  ⟨fun _ => 0, fun _ => 0, fun _ _ => 0, fun _ => 0, fun _ => 0, fun _ => 0, 0⟩

section BuoyancyCharacterization

variable {K : Type} [LinearOrderedField K] (prims : MathPrims K)

/-- The processed layers of the `calcCAPE_CIN` loop: one entry per adjacent
parcel pair whose environment interpolations all succeed, carrying the layer
energy and the bottom and top `{pressure, height}` points. -/
def layerList (levels : List (Level K)) (parcel : List (ParcelPoint K)) :
    List (K × LevelPoint K × LevelPoint K) :=
  (adjPairs parcel).filterMap (layerEnergy prims levels)

/-- Claim-side quantity: the total energy of the positive-energy layers. -/
def posEnergySum (l : List (K × LevelPoint K × LevelPoint K)) : K :=
  ((l.filter (fun x => decide (x.1 > 0))).map (fun x => x.1)).sum

/-- Claim-side quantity: the total energy of the layers encountered before the
first positive-energy layer (all of them of non-positive energy). -/
def preLfcSum (l : List (K × LevelPoint K × LevelPoint K)) : K :=
  ((l.takeWhile (fun x => decide (¬ x.1 > 0))).map (fun x => x.1)).sum

/-- Claim-side quantity: the bottom point of the first positive-energy layer. -/
def firstPosBottom (l : List (K × LevelPoint K × LevelPoint K)) :
    Option (LevelPoint K) :=
  (l.find? (fun x => decide (x.1 > 0))).map (fun x => x.2.1)

/-- Claim-side quantity: the top point of the last positive-energy layer. -/
def lastPosTop (l : List (K × LevelPoint K × LevelPoint K)) :
    Option (LevelPoint K) :=
  ((l.filter (fun x => decide (x.1 > 0))).getLast?).map (fun x => x.2.2)

/-- The `calcCAPE_CIN` loop body expressed on a processed layer. -/
def layerStep (st : EnergyResult K) (x : K × LevelPoint K × LevelPoint K) :
    EnergyResult K :=
  if x.1 > 0 then
    { cape := st.cape + x.1
      cin := st.cin
      lfc := match st.lfc with
        | none => some x.2.1
        | some y => some y
      el := some x.2.2 }
  else
    { cape := st.cape
      cin := match st.lfc with
        | none => st.cin + x.1
        | some _ => st.cin
      lfc := st.lfc
      el := st.el }

lemma capeStep_eq_layerStep (levels : List (Level K)) (st : EnergyResult K)
    (pq : ParcelPoint K × ParcelPoint K) :
    capeStep prims levels st pq =
      match layerEnergy prims levels pq with
      | none => st
      | some x => layerStep st x := by
  unfold capeStep
  cases h : layerEnergy prims levels pq with
  | none => rfl
  | some x =>
    obtain ⟨e, bot, top⟩ := x
    rfl

lemma foldl_capeStep_eq (levels : List (Level K)) :
    ∀ (l : List (ParcelPoint K × ParcelPoint K)) (st : EnergyResult K),
      l.foldl (capeStep prims levels) st =
        (l.filterMap (layerEnergy prims levels)).foldl layerStep st := by
  intro l
  induction l with
  | nil => intro st; rfl
  | cons a tl ih =>
    intro st
    rw [List.foldl_cons, List.filterMap_cons, capeStep_eq_layerStep]
    cases h : layerEnergy prims levels a with
    | none => exact ih st
    | some x => rw [List.foldl_cons]; exact ih (layerStep st x)

lemma posEnergySum_cons (x : K × LevelPoint K × LevelPoint K)
    (tl : List (K × LevelPoint K × LevelPoint K)) :
    posEnergySum (x :: tl) =
      if x.1 > 0 then x.1 + posEnergySum tl else posEnergySum tl := by
  unfold posEnergySum
  rw [List.filter_cons]
  by_cases hx : x.1 > 0 <;> simp [hx]

lemma preLfcSum_cons (x : K × LevelPoint K × LevelPoint K)
    (tl : List (K × LevelPoint K × LevelPoint K)) :
    preLfcSum (x :: tl) =
      if x.1 > 0 then 0 else x.1 + preLfcSum tl := by
  unfold preLfcSum
  rw [List.takeWhile_cons]
  by_cases hx : x.1 > 0 <;> simp [hx]

lemma firstPosBottom_cons (x : K × LevelPoint K × LevelPoint K)
    (tl : List (K × LevelPoint K × LevelPoint K)) :
    firstPosBottom (x :: tl) =
      if x.1 > 0 then some x.2.1 else firstPosBottom tl := by
  unfold firstPosBottom
  by_cases hx : x.1 > 0
  · rw [List.find?_cons_of_pos _ (by simpa using hx)]
    simp [hx]
  · rw [List.find?_cons_of_neg _ (by simpa using hx)]
    simp [hx]

lemma lastPosTop_cons (x : K × LevelPoint K × LevelPoint K)
    (tl : List (K × LevelPoint K × LevelPoint K)) :
    lastPosTop (x :: tl) =
      if x.1 > 0 then
        match lastPosTop tl with
        | none => some x.2.2
        | some y => some y
      else lastPosTop tl := by
  unfold lastPosTop
  rw [List.filter_cons]
  by_cases hx : x.1 > 0
  · simp only [hx, decide_True, if_true]
    cases hf : tl.filter (fun x => decide (x.1 > 0)) with
    | nil => simp
    | cons y ys =>
      rw [List.getLast?_cons_cons]
      cases hg : (y :: ys).getLast? with
      | none => simp at hg
      | some z => simp [hg]
  · simp [hx]

lemma foldl_layerStep_char :
    ∀ (l : List (K × LevelPoint K × LevelPoint K)) (st : EnergyResult K),
      l.foldl layerStep st =
        { cape := st.cape + posEnergySum l
          cin := match st.lfc with
            | none => st.cin + preLfcSum l
            | some _ => st.cin
          lfc := match st.lfc with
            | none => firstPosBottom l
            | some y => some y
          el := match lastPosTop l with
            | none => st.el
            | some y => some y } := by
  intro l
  induction l with
  | nil =>
    intro st
    obtain ⟨c, n, lf, e⟩ := st
    cases lf <;>
      simp [posEnergySum, preLfcSum, firstPosBottom, lastPosTop]
  | cons x tl ih =>
    intro st
    rw [List.foldl_cons, ih, posEnergySum_cons, preLfcSum_cons,
      firstPosBottom_cons, lastPosTop_cons]
    obtain ⟨c, n, lf, e⟩ := st
    by_cases hx : x.1 > 0
    · simp only [layerStep, hx, if_true]
      cases lf <;>
        cases hlt : lastPosTop tl <;>
          simp [add_assoc]
    · simp only [layerStep, hx, if_false]
      cases lf <;>
        cases hlt : lastPosTop tl <;>
          simp [add_assoc]

lemma list_sum_nonpos {l : List K} (h : ∀ x ∈ l, x ≤ 0) : l.sum ≤ 0 := by
  induction l with
  | nil => simp
  | cons a tl ih =>
    rw [List.sum_cons]
    exact add_nonpos (h a (List.mem_cons_self a tl))
      (ih fun x hx => h x (List.mem_cons_of_mem a hx))

lemma posEnergySum_nonneg (l : List (K × LevelPoint K × LevelPoint K)) :
    0 ≤ posEnergySum l := by
  apply List.sum_nonneg
  intro y hy
  obtain ⟨x, hx, rfl⟩ := List.mem_map.mp hy
  have := (List.mem_filter.mp hx).2
  exact le_of_lt (by simpa using this)

lemma preLfcSum_nonpos (l : List (K × LevelPoint K × LevelPoint K)) :
    preLfcSum l ≤ 0 := by
  apply list_sum_nonpos
  intro y hy
  obtain ⟨x, hx, rfl⟩ := List.mem_map.mp hy
  have := List.mem_takeWhile_imp hx
  simpa using this

/-- Central characterization of the buoyancy integrator: the result of
`calcCAPE_CIN` is exactly the first-positive-layer bookkeeping described by
the specification. -/
lemma calcCAPE_CIN_char (levels : List (Level K)) (parcel : List (ParcelPoint K)) :
    calcCAPE_CIN prims levels parcel =
      { cape := posEnergySum (layerList prims levels parcel)
        cin := preLfcSum (layerList prims levels parcel)
        lfc := firstPosBottom (layerList prims levels parcel)
        el := lastPosTop (layerList prims levels parcel) } := by
  unfold calcCAPE_CIN layerList
  rw [foldl_capeStep_eq, foldl_layerStep_char]
  set L := (adjPairs parcel).filterMap (layerEnergy prims levels) with hL
  simp only [zero_add]
  congr 1
  · exact max_eq_right (posEnergySum_nonneg L)
  · exact min_eq_right (preLfcSum_nonpos L)
  · cases hlt : lastPosTop L <;> simp

end BuoyancyCharacterization

section EnergyClaims

variable {K : Type} [LinearOrderedField K]

lemma firstPosBottom_isSome_iff (l : List (K × LevelPoint K × LevelPoint K)) :
    (firstPosBottom l).isSome ↔ ∃ x ∈ l, 0 < x.1 := by
  simp [firstPosBottom, List.find?_isSome]

lemma lastPosTop_isSome_iff (l : List (K × LevelPoint K × LevelPoint K)) :
    (lastPosTop l).isSome ↔ ∃ x ∈ l, 0 < x.1 := by
  rw [lastPosTop]
  cases hg : (l.filter (fun x => decide (x.1 > 0))).getLast? with
  | none =>
    have := List.getLast?_isSome (l := l.filter (fun x => decide (x.1 > 0)))
    rw [hg] at this
    simp only [Option.map_none', Option.isSome_none, Bool.false_eq_true, false_iff]
    intro ⟨x, hx, hpos⟩
    have hne : l.filter (fun x => decide (x.1 > 0)) ≠ [] := by
      intro hnil
      have := List.filter_eq_nil_iff.mp hnil x hx
      simp [hpos] at this
    simp [hne] at this
  | some y =>
    have hne : l.filter (fun x => decide (x.1 > 0)) ≠ [] := by
      intro hnil
      rw [hnil] at hg
      simp at hg
    have hmem : y ∈ l.filter (fun x => decide (x.1 > 0)) :=
      List.mem_of_mem_getLast? hg
    have hy := List.mem_filter.mp hmem
    simp only [Option.map_some', Option.isSome_some, true_iff]
    exact ⟨y, hy.1, by simpa using hy.2⟩

/-- C1: in the buoyancy integrator, each processed layer with positive energy
adds its energy to CAPE and moves EL to the top point of that layer (so the
final EL is the top of the last positive layer); a layer with non-positive
energy adds its energy to CIN only while no positive layer has yet occurred
(so the final CIN is exactly the sum of the layer energies preceding the
first positive layer, and negative layers after the first positive one change
neither CAPE nor CIN); LFC is set to the bottom point of the first positive
layer and never updated afterwards. -/
theorem calcCAPE_CIN_accumulation (prims : MathPrims K) (levels : List (Level K))
    (parcel : List (ParcelPoint K)) :
    (calcCAPE_CIN prims levels parcel).cape =
        posEnergySum (layerList prims levels parcel) ∧
    (calcCAPE_CIN prims levels parcel).cin =
        preLfcSum (layerList prims levels parcel) ∧
    (calcCAPE_CIN prims levels parcel).lfc =
        firstPosBottom (layerList prims levels parcel) ∧
    (calcCAPE_CIN prims levels parcel).el =
        lastPosTop (layerList prims levels parcel) := by
  rw [calcCAPE_CIN_char]
  exact ⟨rfl, rfl, rfl, rfl⟩

/-- C2: for every profile and parcel path, the result of the buoyancy
integrator satisfies cape ≥ 0 and cin ≤ 0. -/
theorem calcCAPE_CIN_sign (prims : MathPrims K) (levels : List (Level K))
    (parcel : List (ParcelPoint K)) :
    0 ≤ (calcCAPE_CIN prims levels parcel).cape ∧
    (calcCAPE_CIN prims levels parcel).cin ≤ 0 := by
  rw [calcCAPE_CIN_char]
  exact ⟨posEnergySum_nonneg _, preLfcSum_nonpos _⟩

/-- C10: in every result of the buoyancy integrator, the lfc and el fields are
each present exactly when at least one processed layer has positive energy;
in particular they are both present or both absent, never one without the
other. -/
theorem calcCAPE_CIN_lfc_el_coupled (prims : MathPrims K) (levels : List (Level K))
    (parcel : List (ParcelPoint K)) :
    ((calcCAPE_CIN prims levels parcel).lfc.isSome ↔
      ∃ x ∈ layerList prims levels parcel, 0 < x.1) ∧
    ((calcCAPE_CIN prims levels parcel).el.isSome ↔
      ∃ x ∈ layerList prims levels parcel, 0 < x.1) ∧
    ((calcCAPE_CIN prims levels parcel).lfc.isSome ↔
      (calcCAPE_CIN prims levels parcel).el.isSome) := by
  rw [calcCAPE_CIN_char]
  refine ⟨firstPosBottom_isSome_iff _, lastPosTop_isSome_iff _, ?_⟩
  rw [firstPosBottom_isSome_iff, lastPosTop_isSome_iff]

end EnergyClaims

section InterpolationClaims

variable {K : Type} [LinearOrderedField K]

lemma adjPairs_nil {α : Type} : adjPairs ([] : List α) = [] := rfl

lemma adjPairs_single {α : Type} (a : α) : adjPairs [a] = [] := rfl

lemma adjPairs_cons_cons {α : Type} (a b : α) (rest : List α) :
    adjPairs (a :: b :: rest) = (a, b) :: adjPairs (b :: rest) := rfl

lemma adjPairs_mem {α : Type} :
    ∀ {l : List α} {pq : α × α}, pq ∈ adjPairs l → pq.1 ∈ l ∧ pq.2 ∈ l := by
  intro l
  induction l with
  | nil => intro pq h; simp [adjPairs_nil] at h
  | cons a tl ih =>
    intro pq h
    cases tl with
    | nil => simp [adjPairs_single] at h
    | cons b rest =>
      rw [adjPairs_cons_cons] at h
      rcases List.mem_cons.mp h with h1 | h2
      · subst h1
        exact ⟨List.mem_cons_self _ _,
          List.mem_cons_of_mem _ (List.mem_cons_self _ _)⟩
      · obtain ⟨hm1, hm2⟩ := ih h2
        exact ⟨List.mem_cons_of_mem _ hm1, List.mem_cons_of_mem _ hm2⟩

lemma interpAtPressure_eq_none_iff (prims : MathPrims K) (pT : K)
    (field : Level K → K) :
    ∀ levels : List (Level K),
      interpAtPressure prims levels pT field = none ↔
        ∀ pq ∈ adjPairs levels, ¬ bracketsPressure pq.1 pq.2 pT := by
  intro levels
  induction levels with
  | nil => simp [interpAtPressure, adjPairs_nil]
  | cons a tl ih =>
    cases tl with
    | nil => simp [interpAtPressure, adjPairs_single]
    | cons b rest =>
      rw [adjPairs_cons_cons]
      simp only [interpAtPressure]
      by_cases hbr : bracketsPressure a b pT
      · rw [if_pos hbr]
        simp [hbr]
      · rw [if_neg hbr, ih]
        simp [hbr]

lemma interpAtPressure_eq_some (prims : MathPrims K) (pT : K)
    (field : Level K → K) :
    ∀ (levels : List (Level K)) (v : K),
      interpAtPressure prims levels pT field = some v →
        ∃ pq ∈ adjPairs levels, bracketsPressure pq.1 pq.2 pT ∧
          v = logInterp prims pq.1 pq.2 pT field := by
  intro levels
  induction levels with
  | nil => intro v h; simp [interpAtPressure] at h
  | cons a tl ih =>
    cases tl with
    | nil => intro v h; simp [interpAtPressure] at h
    | cons b rest =>
      intro v h
      simp only [interpAtPressure] at h
      by_cases hbr : bracketsPressure a b pT
      · rw [if_pos hbr] at h
        refine ⟨(a, b), by simp [adjPairs_cons_cons], hbr, ?_⟩
        injection h with h
        exact h.symm
      · rw [if_neg hbr] at h
        obtain ⟨pq, hmem, hb, hv⟩ := ih v h
        exact ⟨pq, by simp [adjPairs_cons_cons, hmem], hb, hv⟩

lemma interpAtPressure_eq_none_of_outside (prims : MathPrims K) (pT : K)
    (field : Level K → K) (levels : List (Level K))
    (h : (∀ lev ∈ levels, lev.pressure < pT) ∨ (∀ lev ∈ levels, pT < lev.pressure)) :
    interpAtPressure prims levels pT field = none := by
  rw [interpAtPressure_eq_none_iff]
  intro pq hpq hbr
  obtain ⟨h1, h2⟩ := adjPairs_mem hpq
  rcases h with hall | hall
  · rcases hbr with ⟨hge, _⟩ | ⟨_, hge⟩
    · exact absurd hge (not_le.mpr (hall pq.1 h1))
    · exact absurd hge (not_le.mpr (hall pq.2 h2))
  · rcases hbr with ⟨_, hle⟩ | ⟨hle, _⟩
    · exact absurd hle (not_le.mpr (hall pq.2 h2))
    · exact absurd hle (not_le.mpr (hall pq.1 h1))

lemma interpAtPressure_isSome_of_range (prims : MathPrims K) (pT : K)
    (field : Level K → K) :
    ∀ levels : List (Level K), 2 ≤ levels.length →
      List.Chain' (fun u w : Level K => w.pressure ≤ u.pressure) levels →
      (levels.getLastD default).pressure ≤ pT →
      pT ≤ (levels.headD default).pressure →
      (interpAtPressure prims levels pT field).isSome = true := by
  intro levels
  induction levels with
  | nil => intro h; simp at h
  | cons a tl ih =>
    cases tl with
    | nil => intro h; simp at h
    | cons b rest =>
      intro _ hchain hlast hhead
      simp only [List.headD_cons] at hhead
      by_cases hbr : bracketsPressure a b pT
      · simp only [interpAtPressure]
        rw [if_pos hbr]
        rfl
      · have hchain2 := (List.chain'_cons.mp hchain).2
        have hnb : ¬ b.pressure ≤ pT := fun hble => hbr (Or.inl ⟨hhead, hble⟩)
        have hpb : pT ≤ b.pressure := le_of_not_le hnb
        cases rest with
        | nil =>
          exfalso
          exact hnb (by simpa [List.getLastD_cons] using hlast)
        | cons c rs =>
          simp only [interpAtPressure]
          rw [if_neg hbr]
          exact ih (by simp) hchain2
            (by simpa [List.getLastD_cons] using hlast) (by simpa using hpb)

lemma pressureBracket_eq_none_iff (target : K) :
    ∀ levels : List (Level K),
      pressureBracket levels target = none ↔
        ∀ pq ∈ adjPairs levels, ¬ bracketsHeight pq.1 pq.2 target := by
  intro levels
  induction levels with
  | nil => simp [pressureBracket, adjPairs_nil]
  | cons a tl ih =>
    cases tl with
    | nil => simp [pressureBracket, adjPairs_single]
    | cons b rest =>
      rw [adjPairs_cons_cons]
      simp only [pressureBracket]
      by_cases hbr : bracketsHeight a b target
      · rw [if_pos hbr]
        simp [hbr]
      · rw [if_neg hbr, ih]
        simp [hbr]

lemma pressureBracket_eq_some (target : K) :
    ∀ (levels : List (Level K)) (v : K),
      pressureBracket levels target = some v →
        ∃ pq ∈ adjPairs levels, bracketsHeight pq.1 pq.2 target ∧
          v = pq.1.pressure + (target - pq.1.height) /
            (pq.2.height - pq.1.height) * (pq.2.pressure - pq.1.pressure) := by
  intro levels
  induction levels with
  | nil => intro v h; simp [pressureBracket] at h
  | cons a tl ih =>
    cases tl with
    | nil => intro v h; simp [pressureBracket] at h
    | cons b rest =>
      intro v h
      simp only [pressureBracket] at h
      by_cases hbr : bracketsHeight a b target
      · rw [if_pos hbr] at h
        refine ⟨(a, b), by simp [adjPairs_cons_cons], hbr, ?_⟩
        injection h with h
        exact h.symm
      · rw [if_neg hbr] at h
        obtain ⟨pq, hmem, hb, hv⟩ := ih v h
        exact ⟨pq, by simp [adjPairs_cons_cons, hmem], hb, hv⟩

/-- C6: `interpAtPressure` returns none exactly when no adjacent pair of
levels brackets the target pressure inclusively in either orientation; in
particular every target pressure strictly outside the profile pressure range
yields none; every some result is the log-pressure linear interpolation at a
bracketing adjacent pair; and on a profile of at least two levels sorted by
non-increasing pressure, every target inside the pressure range yields a
value. -/
theorem interpAtPressure_spec (prims : MathPrims K) (levels : List (Level K))
    (pT : K) (field : Level K → K) :
    (interpAtPressure prims levels pT field = none ↔
      ∀ pq ∈ adjPairs levels, ¬ bracketsPressure pq.1 pq.2 pT) ∧
    ((∀ lev ∈ levels, lev.pressure < pT) ∨ (∀ lev ∈ levels, pT < lev.pressure) →
      interpAtPressure prims levels pT field = none) ∧
    (∀ v, interpAtPressure prims levels pT field = some v →
      ∃ pq ∈ adjPairs levels, bracketsPressure pq.1 pq.2 pT ∧
        v = logInterp prims pq.1 pq.2 pT field) ∧
    (2 ≤ levels.length →
      List.Chain' (fun u w : Level K => w.pressure ≤ u.pressure) levels →
      (levels.getLastD default).pressure ≤ pT →
      pT ≤ (levels.headD default).pressure →
      (interpAtPressure prims levels pT field).isSome = true) :=
  ⟨interpAtPressure_eq_none_iff prims pT field levels,
    interpAtPressure_eq_none_of_outside prims pT field levels,
    interpAtPressure_eq_some prims pT field levels,
    interpAtPressure_isSome_of_range prims pT field levels⟩

/-- A concrete two-level rational profile used to exercise the interpolation
theorems. -/
def twoLevelProfile : List (Level ℚ) :=
  [⟨1000, 100, 20, 10, 180, 10⟩, ⟨900, 1100, 15, 5, 180, 20⟩]

/-- Witness for the interpolation specification: on a concrete sorted
two-level profile, a target pressure inside the range yields a value. -/
theorem interpAtPressure_spec_witness :
    2 ≤ twoLevelProfile.length ∧
    List.Chain' (fun u w : Level ℚ => w.pressure ≤ u.pressure) twoLevelProfile ∧
    (twoLevelProfile.getLastD default).pressure ≤ 950 ∧
    (950 : ℚ) ≤ (twoLevelProfile.headD default).pressure ∧
    (interpAtPressure qPrims twoLevelProfile 950 (fun lev => lev.temp)).isSome = true :=
  ⟨by decide, by norm_num [twoLevelProfile, List.chain'_cons], by decide, by decide,
    (interpAtPressure_spec qPrims twoLevelProfile 950 (fun lev => lev.temp)).2.2.2
      (by decide) (by norm_num [twoLevelProfile, List.chain'_cons]) (by decide) (by decide)⟩

end InterpolationClaims

section InversionClaims

variable {K : Type} [LinearOrderedField K]

/-- C5 (amended): `pressureAtHeight` interpolates pressure linearly in height
(equivalently height linearly in pressure; no logarithms) at the first
bracketing adjacent pair, and clamps to the pressure of the last (topmost)
available level when the target height lies beyond the profile extent;
`heightAtPressure` instead delegates to the log-pressure interpolation
`interpAtPressure` on the height field, and returns none — not a clamped
value — when the target pressure is beyond the profile extent. -/
theorem heightPressureInversion_spec (prims : MathPrims K)
    (levels : List (Level K)) (hT pT : K) :
    ((∀ pq ∈ adjPairs levels,
        ¬ bracketsHeight pq.1 pq.2 ((levels.headD default).height + hT)) →
      pressureAtHeight levels hT = (levels.getLastD default).pressure) ∧
    (∀ v, pressureBracket levels ((levels.headD default).height + hT) = some v →
      pressureAtHeight levels hT = v ∧
      ∃ pq ∈ adjPairs levels,
        bracketsHeight pq.1 pq.2 ((levels.headD default).height + hT) ∧
        v = pq.1.pressure + ((levels.headD default).height + hT - pq.1.height) /
          (pq.2.height - pq.1.height) * (pq.2.pressure - pq.1.pressure)) ∧
    heightAtPressure prims levels pT =
      interpAtPressure prims levels pT (fun lev => lev.height) ∧
    ((∀ lev ∈ levels, lev.pressure < pT) ∨ (∀ lev ∈ levels, pT < lev.pressure) →
      heightAtPressure prims levels pT = none) := by
  refine ⟨?_, ?_, rfl, ?_⟩
  · intro h
    have hb := (pressureBracket_eq_none_iff ((levels.headD default).height + hT) levels).mpr h
    show (match pressureBracket levels ((levels.headD default).height + hT) with
      | some p => p
      | none => (levels.getLastD default).pressure) = (levels.getLastD default).pressure
    rw [hb]
  · intro v hv
    refine ⟨?_, pressureBracket_eq_some ((levels.headD default).height + hT) levels v hv⟩
    show (match pressureBracket levels ((levels.headD default).height + hT) with
      | some p => p
      | none => (levels.getLastD default).pressure) = v
    rw [hv]
  · intro h
    exact interpAtPressure_eq_none_of_outside prims pT _ levels h

/-- Witness for the inversion specification: on a concrete two-level profile,
a target height beyond the profile extent makes `pressureAtHeight` clamp to
the pressure of the last level. -/
theorem heightPressureInversion_spec_witness :
    (∀ pq ∈ adjPairs twoLevelProfile,
        ¬ bracketsHeight pq.1 pq.2 ((twoLevelProfile.headD default).height + 5000)) ∧
    pressureAtHeight twoLevelProfile 5000 = (twoLevelProfile.getLastD default).pressure :=
  ⟨by norm_num [twoLevelProfile, adjPairs_cons_cons, adjPairs_single, bracketsHeight],
    (heightPressureInversion_spec qPrims twoLevelProfile 5000 0).1
      (by norm_num [twoLevelProfile, adjPairs_cons_cons, adjPairs_single, bracketsHeight])⟩

/-- C5 counterexample: on the two-level real profile with pressures 100 and
25 hPa at heights 0 and 1 m, `heightAtPressure` at 50 hPa returns the
log-pressure interpolation 1/2 rather than the pressure-linear value 2/3,
and at 10 hPa (beyond the profile extent) it returns none rather than
clamping to the topmost level. -/
theorem heightAtPressure_counterexample :
    heightAtPressure realPrims
        [⟨100, 0, 0, 0, 0, 0⟩, ⟨25, 1, 0, 0, 0, 0⟩] 50 = some (1 / 2) ∧
    (0 + (50 - 100) / (25 - 100) * (1 - 0) : ℝ) = 2 / 3 ∧
    (1 / 2 : ℝ) ≠ 2 / 3 ∧
    heightAtPressure realPrims
        [⟨100, 0, 0, 0, 0, 0⟩, ⟨25, 1, 0, 0, 0, 0⟩] 10 = none := by
  refine ⟨?_, by norm_num, by norm_num, ?_⟩
  · unfold heightAtPressure
    simp only [interpAtPressure]
    have hbr : bracketsPressure (⟨100, 0, 0, 0, 0, 0⟩ : Level ℝ)
        ⟨25, 1, 0, 0, 0, 0⟩ 50 := Or.inl ⟨by norm_num, by norm_num⟩
    rw [if_pos hbr]
    unfold logInterp realPrims
    simp only
    have hlog2 : Real.log 2 ≠ 0 := ne_of_gt (Real.log_pos one_lt_two)
    have h50 : Real.log 50 - Real.log 100 = -Real.log 2 := by
      rw [← Real.log_div (by norm_num) (by norm_num)]
      rw [show (50 : ℝ) / 100 = (2 : ℝ)⁻¹ by norm_num, Real.log_inv]
    have h25 : Real.log 25 - Real.log 100 = -(2 * Real.log 2) := by
      rw [← Real.log_div (by norm_num) (by norm_num)]
      rw [show (25 : ℝ) / 100 = ((2 : ℝ) ^ (2 : ℕ))⁻¹ by norm_num,
        Real.log_inv, Real.log_pow]
      norm_num
    rw [h50, h25]
    congr 1
    rw [neg_div_neg_eq]
    field_simp
    ring
  · exact interpAtPressure_eq_none_of_outside realPrims 10 (fun lev => lev.height) _
      (Or.inr (by intro lev hlev; fin_cases hlev <;> norm_num))

end InversionClaims

section DryAdiabatClaim

/-- C7: the dry-adiabat lift is exactly reversible in real arithmetic: for
every starting temperature and every pair of positive pressures, lifting from
p1 to p2 and then applying the inverse pressure ratio recovers the original
temperature. -/
theorem dryAdiabat_roundtrip (t p1 p2 : ℝ) (h1 : 0 < p1) (h2 : 0 < p2) :
    dryAdiabat realPrims (dryAdiabat realPrims t p1 p2) p2 p1 = t := by
  unfold dryAdiabat realPrims KtoC CtoK
  simp only
  have hk : ((p2 / p1) ^ (Rd / Cp : ℝ)) * ((p1 / p2) ^ (Rd / Cp : ℝ)) = 1 := by
    rw [← Real.mul_rpow (div_nonneg h2.le h1.le) (div_nonneg h1.le h2.le)]
    rw [show p2 / p1 * (p1 / p2) = 1 from by field_simp]
    exact Real.one_rpow _
  rw [sub_add_cancel, mul_assoc, hk, mul_one, add_sub_cancel_right]

/-- Witness for the dry-adiabat round trip at 25 °C between 1000 and 700 hPa. -/
theorem dryAdiabat_roundtrip_witness :
    (0 : ℝ) < 1000 ∧ (0 : ℝ) < 700 ∧
    dryAdiabat realPrims (dryAdiabat realPrims 25 1000 700) 700 1000 = 25 :=
  ⟨by norm_num, by norm_num,
    dryAdiabat_roundtrip 25 1000 700 (by norm_num) (by norm_num)⟩

end DryAdiabatClaim

section BunkersClaim

variable {K : Type} [LinearOrderedField K]

lemma interpAtPressure_const (prims : MathPrims K) (pT : K)
    (field : Level K → K) (c : K) :
    ∀ levels : List (Level K), (∀ lev ∈ levels, field lev = c) →
      interpAtPressure prims levels pT field = none ∨
      interpAtPressure prims levels pT field = some c := by
  intro levels
  induction levels with
  | nil => intro _; left; rfl
  | cons a tl ih =>
    cases tl with
    | nil => intro _; left; rfl
    | cons b rest =>
      intro h
      simp only [interpAtPressure]
      by_cases hbr : bracketsPressure a b pT
      · rw [if_pos hbr]
        right
        unfold logInterp
        rw [h a (List.mem_cons_self _ _),
          h b (List.mem_cons_of_mem _ (List.mem_cons_self _ _))]
        simp
      · rw [if_neg hbr]
        exact ih (fun lev hl => h lev (List.mem_cons_of_mem _ hl))

lemma bulkShear_const_wind (prims : MathPrims K) (levels : List (Level K))
    (hBot hTop dir spd : K)
    (hw : ∀ lev ∈ levels, lev.windDir = dir ∧ lev.windSpd = spd) :
    (bulkShear prims levels hBot hTop).u = 0 ∧
    (bulkShear prims levels hBot hTop).v = 0 := by
  have hdirB := interpAtPressure_const prims (pressureAtHeight levels hBot)
    (fun lev => lev.windDir) dir levels (fun lev hl => (hw lev hl).1)
  have hspdB := interpAtPressure_const prims (pressureAtHeight levels hBot)
    (fun lev => lev.windSpd) spd levels (fun lev hl => (hw lev hl).2)
  have hdirT := interpAtPressure_const prims (pressureAtHeight levels hTop)
    (fun lev => lev.windDir) dir levels (fun lev hl => (hw lev hl).1)
  have hspdT := interpAtPressure_const prims (pressureAtHeight levels hTop)
    (fun lev => lev.windSpd) spd levels (fun lev hl => (hw lev hl).2)
  simp only [bulkShear]
  rcases hdirB with h1 | h1 <;> rcases hspdB with h2 | h2 <;>
    rcases hdirT with h3 | h3 <;> rcases hspdT with h4 | h4 <;>
      rw [h1, h2, h3, h4] <;> simp

/-- C8: whenever the computed 0-6 km bulk-shear magnitude is exactly zero,
Bunkers storm motion returns the 0-6 km pressure-weighted mean wind for both
the right mover and the left mover; and a profile with identical wind at
every level produces exactly zero shear magnitude (given that the square
root of zero is zero, as for the real square root). -/
theorem bunkersMotion_zero_shear (prims : MathPrims K) (levels : List (Level K)) :
    (prims.sqrt ((bulkShear prims levels 0 6000).u * (bulkShear prims levels 0 6000).u +
        (bulkShear prims levels 0 6000).v * (bulkShear prims levels 0 6000).v) = 0 →
      bunkersMotion prims levels =
        ⟨⟨(meanWind prims levels (levels.headD default).pressure
              (pressureAtHeight levels 6000)).u,
          (meanWind prims levels (levels.headD default).pressure
              (pressureAtHeight levels 6000)).v⟩,
          ⟨(meanWind prims levels (levels.headD default).pressure
              (pressureAtHeight levels 6000)).u,
          (meanWind prims levels (levels.headD default).pressure
              (pressureAtHeight levels 6000)).v⟩⟩) ∧
    (∀ dir spd, (∀ lev ∈ levels, lev.windDir = dir ∧ lev.windSpd = spd) →
      prims.sqrt 0 = 0 →
      prims.sqrt ((bulkShear prims levels 0 6000).u * (bulkShear prims levels 0 6000).u +
        (bulkShear prims levels 0 6000).v * (bulkShear prims levels 0 6000).v) = 0) := by
  constructor
  · intro h
    unfold bunkersMotion
    rw [if_pos h]
  · intro dir spd hw hsqrt
    obtain ⟨hu, hv⟩ := bulkShear_const_wind prims levels 0 6000 dir spd hw
    rw [hu, hv]
    simpa using hsqrt

end BunkersClaim

/-- A concrete rational profile with identical wind at every level. -/
def constWindProfile : List (Level ℚ) :=
  [⟨1000, 100, 20, 10, 180, 10⟩, ⟨900, 1100, 15, 5, 180, 10⟩,
    ⟨800, 2100, 10, 0, 180, 10⟩]

/-- Witness for the zero-shear Bunkers degeneration on a concrete
identical-wind profile. -/
theorem bunkersMotion_zero_shear_witness :
    (∀ lev ∈ constWindProfile, lev.windDir = 180 ∧ lev.windSpd = 10) ∧
    bunkersMotion qPrims constWindProfile =
      ⟨⟨(meanWind qPrims constWindProfile (constWindProfile.headD default).pressure
            (pressureAtHeight constWindProfile 6000)).u,
        (meanWind qPrims constWindProfile (constWindProfile.headD default).pressure
            (pressureAtHeight constWindProfile 6000)).v⟩,
        ⟨(meanWind qPrims constWindProfile (constWindProfile.headD default).pressure
            (pressureAtHeight constWindProfile 6000)).u,
        (meanWind qPrims constWindProfile (constWindProfile.headD default).pressure
            (pressureAtHeight constWindProfile 6000)).v⟩⟩ :=
  ⟨by decide,
    (bunkersMotion_zero_shear qPrims constWindProfile).1
      ((bunkersMotion_zero_shear qPrims constWindProfile).2 180 10 (by decide) rfl)⟩

/-- C9: in calcSTP the shear term is min(shear06/20, 1.5) (capped at 1.5);
the LCL term is (2000 − lcl)/1000 below 2000 m and 0 at or above 2000 m; the
CIN term is 1 for cin above −50, (200 + cin)/150 between −150 and −50, and 0
at or below −150; and STP is the product of these terms with cape/1500 and
srh01/150, with the thresholds left discontinuous. -/
theorem calcSTP_terms {K : Type} [LinearOrderedField K]
    (sbcape lcl srh01 shear06 cin : K) :
    calcSTP sbcape lcl srh01 shear06 cin =
      (sbcape / 1500) * (if lcl < 2000 then (2000 - lcl) / 1000 else 0) *
        (srh01 / 150) * min (shear06 / 20) 1.5 *
        (if cin > -50 then 1 else if cin > -150 then (200 + cin) / 150 else 0) := by
  unfold calcSTP
  by_cases h1 : lcl < 1000
  · have h2 : lcl < 2000 := h1.trans (by norm_num)
    simp [h1, h2]
  · simp [h1]

/-- C3: analyzeSounding returns none — never a partially filled record — for
every profile with fewer than 5 levels, and produces a complete analysis
record for every profile with at least 5 levels. -/
theorem analyzeSounding_guard {K : Type} [LinearOrderedField K] [FloorRing K]
    (prims : MathPrims K) (levels : List (Level K)) :
    (levels.length < 5 → analyzeSounding prims levels = none) ∧
    (5 ≤ levels.length → ∃ r, analyzeSounding prims levels = some r) := by
  constructor
  · intro h
    unfold analyzeSounding
    rw [if_pos h]
  · intro h
    unfold analyzeSounding
    rw [if_neg (by omega)]
    exact ⟨_, rfl⟩

/-- A concrete rational four-level profile (too short for analysis). -/
def fourLevelProfile : List (Level ℚ) :=
  [⟨1000, 100, 20, 10, 180, 10⟩, ⟨900, 1100, 15, 5, 180, 20⟩,
    ⟨800, 2100, 10, 0, 190, 25⟩, ⟨700, 3200, 5, -5, 200, 30⟩]

/-- A concrete rational five-level profile (long enough for analysis). -/
def fiveLevelProfile : List (Level ℚ) :=
  [⟨1000, 100, 20, 10, 180, 10⟩, ⟨900, 1100, 15, 5, 180, 20⟩,
    ⟨800, 2100, 10, 0, 190, 25⟩, ⟨700, 3200, 5, -5, 200, 30⟩,
    ⟨600, 4400, 0, -10, 210, 35⟩]

/-- Witness for the analyzeSounding guard: a four-level profile yields none
and a five-level profile yields a record. -/
theorem analyzeSounding_guard_witness :
    fourLevelProfile.length < 5 ∧
    analyzeSounding qPrims fourLevelProfile = none ∧
    5 ≤ fiveLevelProfile.length ∧
    ∃ r, analyzeSounding qPrims fiveLevelProfile = some r :=
  ⟨by decide, (analyzeSounding_guard qPrims fourLevelProfile).1 (by decide),
    by decide, (analyzeSounding_guard qPrims fiveLevelProfile).2 (by decide)⟩
